import Mathlib

/-!
Shallow embedding of the GovernFun Solana program
(`programs/community_token_launcher/src/lib.rs`) and proofs about it.

Modelling conventions:
* `Pubkey` is modelled as `Nat`; u64 quantities as `Nat` with explicit
  `u64Max` bounds where overflow matters; i64 quantities as `Int`.
* Each instruction handler becomes a pure function
  `World → args → Except Err World`; the Solana runtime commits a
  transaction atomically, so an `Except.error` result leaves the caller's
  state untouched (all-or-nothing semantics, spec section 5).
* Anchor account constraints (`init`, `constraint = ...`) are part of an
  instruction's observable behaviour and are modelled as explicit checks
  at the head of each handler, in account-struct order.
-/

namespace GovernFun

/-- Fee numerator: 1% fee (`FEE_PERCENTAGE` in the source). -/
def FEE_PERCENTAGE : Nat := 1

/-- Fee denominator (`FEE_BASIS_POINTS` in the source). -/
def FEE_BASIS_POINTS : Nat := 100

/-- Share of collected fees routed to the protocol (`PROTOCOL_FEE_PERCENTAGE`). -/
def PROTOCOL_FEE_PERCENTAGE : Nat := 70

/-- Share of collected fees routed to staking rewards (`STAKING_REWARDS_PERCENTAGE`). -/
def STAKING_REWARDS_PERCENTAGE : Nat := 30

/-- Minimum staking lockup in seconds (`MIN_STAKING_PERIOD`). -/
def MIN_STAKING_PERIOD : Int := 86400

/-- Seconds per day (`SECONDS_PER_DAY`). -/
def SECONDS_PER_DAY : Int := 86400

/-- Minimum first-deposit staking amount (`MIN_STAKING_AMOUNT`). -/
def MIN_STAKING_AMOUNT : Nat := 100

/-- Maximum number of proposal choices (`MAX_CHOICES`). -/
def MAX_CHOICES : Nat := 10

/-- Largest value representable in a u64 field. -/
def u64Max : Nat := 2 ^ 64 - 1

/-- Smallest i64 value. -/
def i64Min : Int := -(2 ^ 63)

/-- Largest i64 value. -/
def i64MaxI : Int := 2 ^ 63 - 1

/-- Error codes of the program (`ErrorCode` in the source), together with the
conditions raised by the runtime itself: `InsufficientFunds` for a failed SPL
transfer, `AccountAlreadyInUse` for `init` on an existing account,
`AccountNotFound` for a missing expected account, `ArithmeticOverflow`
for a trapped unchecked overflow and `PanicIndexOutOfBounds` for an
out-of-bounds vector index. -/
inductive Err where
  | Unauthorized
  | GovernanceInactive
  | ProposalNotActive
  | VotingNotEnded
  | InvalidChoiceId
  | InvalidChoicesCount
  | TooManyChoices
  | VoteThresholdNotMet
  | ProposalNotExecuted
  | NoWinningChoice
  | NotWinningEscrow
  | IsWinningEscrow
  | InvalidThresholdPercentage
  | InsufficientStakedTokens
  | MinimumStakingPeriodNotMet
  | CalculationError
  | NoStakedTokens
  | InvalidFeeCollector
  | InvalidPayload
  | InvalidGovernanceSettings
  | InsufficientStakingAmount
  | InsufficientFunds
  | AccountAlreadyInUse
  | AccountNotFound
  | ArithmeticOverflow
  | PanicIndexOutOfBounds
  deriving DecidableEq, Repr

/-- Source helper `calculate_fee`: `amount * FEE_PERCENTAGE / FEE_BASIS_POINTS`.
The multiplication is by 1, so it never exceeds u64 for u64 input. -/
def calculate_fee (amount : Nat) : Nat :=
  amount * FEE_PERCENTAGE / FEE_BASIS_POINTS

/-- Source helper `calculate_protocol_fee`: `fee_amount * PROTOCOL_FEE_PERCENTAGE / 100`.
Every caller in the program applies it to `calculate_fee` of a u64 amount, so
the intermediate product `fee * 70` stays far below `2 ^ 64`. -/
def calculate_protocol_fee (fee_amount : Nat) : Nat :=
  fee_amount * PROTOCOL_FEE_PERCENTAGE / 100

/-- Source helper `calculate_staking_reward`: `fee_amount * STAKING_REWARDS_PERCENTAGE / 100`. -/
def calculate_staking_reward (fee_amount : Nat) : Nat :=
  fee_amount * STAKING_REWARDS_PERCENTAGE / 100

/-- Modelled from the spec: the crate manifest (release-profile overflow-check
setting) is not under `src`, and the spec (sections 4.3 and 7) requires
unchecked u64 overflow to abort the transaction as a fatal arithmetic error,
never to wrap. Checked addition for a raw `+=` on a u64 account field. -/
def add64 (a b : Nat) : Except Err Nat :=
  if a + b ≤ u64Max then .ok (a + b) else .error .ArithmeticOverflow

/-- Modelled from the spec: raw `-=` on a u64 account field traps on underflow
(see `add64`). -/
def sub64 (a b : Nat) : Except Err Nat :=
  if b ≤ a then .ok (a - b) else .error .ArithmeticOverflow

/-- Source pattern `a.checked_add(b).ok_or(ErrorCode::CalculationError)?`. -/
def checkedAdd64 (a b : Nat) : Except Err Nat :=
  if a + b ≤ u64Max then .ok (a + b) else .error .CalculationError

/-- Source pattern `a.checked_sub(b).ok_or(ErrorCode::CalculationError)?`. -/
def checkedSub64 (a b : Nat) : Except Err Nat :=
  if b ≤ a then .ok (a - b) else .error .CalculationError

/-- Modelled from the spec: i64 multiplication (`voting_period_days * SECONDS_PER_DAY`)
traps on overflow (see `add64`). -/
def mulI64 (a b : Int) : Except Err Int :=
  if i64Min ≤ a * b ∧ a * b ≤ i64MaxI then .ok (a * b) else .error .ArithmeticOverflow

/-- Modelled from the spec: the external Ledger transfer primitive
(`token::transfer`, an SPL CPI whose implementation is not in this repository)
is atomic and fails exactly when the source balance is insufficient
(spec section 6). This debits a source balance; the matching credit is a
plain addition at the call site. -/
def debit (bal amt : Nat) : Except Err Nat :=
  if amt ≤ bal then .ok (bal - amt) else .error .InsufficientFunds

/-- Proposal status (`ProposalStatus` in the source). -/
inductive ProposalStatus where
  | Active
  | Executed
  | Rejected
  deriving DecidableEq, Repr

/-- Proposal execution type (`ProposalExecutionType` in the source). -/
inductive ProposalExecutionType where
  | UpdateSettings
  | AddModerator
  | CustomAction
  deriving DecidableEq, Repr

/-- Account `Governance` (address fields as `Nat`). -/
structure Governance where
  authority : Nat
  token_mint : Nat
  proposal_count : Nat
  voting_period : Int
  min_vote_threshold : Nat
  proposal_threshold : Nat
  proposal_threshold_percentage : Nat
  is_active : Bool
  created_at : Int
  deriving DecidableEq, Repr

/-- Account `MultiChoiceProposal`. -/
structure MultiChoiceProposal where
  id : Nat
  proposer : Nat
  token_creator : Nat
  title : String
  description : String
  choices : List String
  choice_vote_counts : List Nat
  execution_type : ProposalExecutionType
  execution_payload : List Nat
  status : ProposalStatus
  created_at : Int
  ends_at : Int
  winning_choice : Option Nat
  deriving DecidableEq, Repr

/-- Account `ChoiceEscrow`, together with the balance of its dedicated
escrow fund vault (the `choice_escrow_vault` token account derived from the
same seeds), carried alongside the record for convenience. -/
structure Escrow where
  voter : Nat
  choice_id : Nat
  locked_amount : Nat
  vault : Nat
  deriving DecidableEq, Repr

/-- Account `StakingPool`. -/
structure StakingPool where
  token_mint : Nat
  reward_balance : Nat
  total_staked_amount : Nat
  last_distribution_time : Int
  distribution_interval : Int
  deriving DecidableEq, Repr

/-- Account `StakerAccount`. -/
structure StakerAccount where
  staker : Nat
  token_mint : Nat
  staked_amount : Nat
  stake_start_time : Int
  last_claim_time : Int
  cumulative_rewards : Nat
  auto_compound : Bool
  deriving DecidableEq, Repr

/-- Source method `MultiChoiceProposal::update_vote_count`: fails with
`InvalidChoiceId` when `choice_id` is not below `choices.len()`, otherwise
increments `choice_vote_counts[choice_id]` (a raw `+=`; a Rust vector index
out of range panics, `PanicIndexOutOfBounds`). -/
def update_vote_count (p : MultiChoiceProposal) (choice_id amount : Nat) :
    Except Err MultiChoiceProposal :=
  if choice_id < p.choices.length then
    if choice_id < p.choice_vote_counts.length then
      match add64 (p.choice_vote_counts.getD choice_id 0) amount with
      | .error e => .error e
      | .ok c2 =>
        .ok { p with choice_vote_counts := p.choice_vote_counts.set choice_id c2 }
    else .error .PanicIndexOutOfBounds
  else .error .InvalidChoiceId

/-- The winner-finding loop of `execute_proposal`: running maximum starting at
0 with winning index starting at 0, updated only on a strictly larger count. -/
def findWinnerAux : List Nat → Nat → Nat → Nat → Nat
  | [], _, _, wi => wi
  | v :: rest, i, mx, wi =>
    if v > mx then findWinnerAux rest (i + 1) v i
    else findWinnerAux rest (i + 1) mx wi

/-- Winner of a vote-count vector, as computed by `execute_proposal`. -/
def findWinner (counts : List Nat) : Nat :=
  findWinnerAux counts 0 0 0

/-- Payload `UpdateSettingsPayload` of an update-settings proposal. -/
structure UpdateSettingsPayload where
  voting_period_days : Int
  min_vote_threshold : Nat
  proposal_threshold : Nat
  proposal_threshold_percentage : Nat
  deriving DecidableEq, Repr

/-- Little-endian decoding of a byte list into a natural number. -/
def decodeLE (bs : List Nat) : Nat :=
  bs.foldr (fun b acc => b + 256 * acc) 0

/-- Little-endian two's-complement decoding of 8 bytes into an i64 value. -/
def decodeI64LE (bs : List Nat) : Int :=
  let n := decodeLE bs
  if n < 2 ^ 63 then (n : Int) else (n : Int) - 2 ^ 64

/-- Borsh deserialization of `UpdateSettingsPayload`
(`UpdateSettingsPayload::try_from_slice`): an i64, two u64 and one u8 field,
little-endian, 25 bytes total; any other length fails (borsh rejects both
truncated and over-long input). -/
def deserializeUpdateSettingsPayload (bs : List Nat) : Option UpdateSettingsPayload :=
  if bs.length = 25 then
    some
      { voting_period_days := decodeI64LE (bs.take 8)
        min_vote_threshold := decodeLE ((bs.drop 8).take 8)
        proposal_threshold := decodeLE ((bs.drop 16).take 8)
        proposal_threshold_percentage := bs.getD 24 0 }
  else none

/-- The proposal mutation performed by a successful `execute_proposal`: the
winning index (stored through `as u8`, hence `% 256`) and the `Executed`
status. -/
def executedProposal (p : MultiChoiceProposal) : MultiChoiceProposal :=
  { p with winning_choice := some (findWinner p.choice_vote_counts % 256)
           status := .Executed }

/-- Instruction `execute_proposal`. Arguments: the signing executor, the
clock time, the token-registry authority, the governance account and the
proposal account. Returns the updated governance and proposal. The winning
index is stored through `as u8` (`% 256`); the log line indexes
`choices[winning_index]`, which panics when out of range. -/
def executeProposal (executor : Nat) (now : Int) (tokenAuthority : Nat)
    (g : Governance) (p : MultiChoiceProposal) :
    Except Err (Governance × MultiChoiceProposal) :=
  if ¬(executor = tokenAuthority ∨ executor = g.authority) then .error .Unauthorized
  else if ¬(now > p.ends_at) then .error .VotingNotEnded
  else if p.status ≠ .Active then .error .ProposalNotActive
  else if p.choice_vote_counts.sum < g.min_vote_threshold then .error .VoteThresholdNotMet
  else
    if findWinner p.choice_vote_counts < p.choices.length then
      match p.execution_type with
      | .UpdateSettings =>
        if executor ≠ tokenAuthority then .error .Unauthorized
        else
          match deserializeUpdateSettingsPayload p.execution_payload with
          | none => .error .InvalidPayload
          | some pl =>
            if ¬(pl.voting_period_days > 0) then .error .InvalidGovernanceSettings
            else if ¬(pl.min_vote_threshold > 0) then .error .InvalidGovernanceSettings
            else if ¬(pl.proposal_threshold > 0) then .error .InvalidGovernanceSettings
            else if ¬(pl.proposal_threshold_percentage ≤ 100) then
              .error .InvalidThresholdPercentage
            else
              match mulI64 pl.voting_period_days SECONDS_PER_DAY with
              | .error e => .error e
              | .ok vps =>
                .ok
                  ({ g with
                      voting_period := vps
                      min_vote_threshold := pl.min_vote_threshold
                      proposal_threshold := pl.proposal_threshold
                      proposal_threshold_percentage := pl.proposal_threshold_percentage },
                    executedProposal p)
      | .AddModerator => .ok (g, executedProposal p)
      | .CustomAction => .ok (g, executedProposal p)
    else .error .PanicIndexOutOfBounds

/-- All-or-nothing commit of an `execute_proposal` transaction (spec section 5):
on error nothing is written, so the governance and proposal records keep their
previous values. -/
def commitExec (g : Governance) (p : MultiChoiceProposal)
    (r : Except Err (Governance × MultiChoiceProposal)) :
    Governance × MultiChoiceProposal :=
  match r with
  | .ok gp => gp
  | .error _ => (g, p)

/-- Balance of an external token account keyed by its owner (0 when absent). -/
def getBal : List (Nat × Nat) → Nat → Nat
  | [], _ => 0
  | (k2, v) :: rest, k => if k2 = k then v else getBal rest k

/-- Write the balance of an external token account. -/
def setBal : List (Nat × Nat) → Nat → Nat → List (Nat × Nat)
  | [], k, v => [(k, v)]
  | (k2, v2) :: rest, k, v =>
    if k2 = k then (k, v) :: rest else (k2, v2) :: setBal rest k v

/-- Look up the staker account with the given key (the PDA derived from the
staker's address; at most one such account exists per staker and token). -/
def findStaker (l : List StakerAccount) (k : Nat) : Option StakerAccount :=
  l.find? (fun sa => sa.staker = k)

/-- Replace the first staker account with the given key. -/
def updateStaker : List StakerAccount → Nat → StakerAccount → List StakerAccount
  | [], _, _ => []
  | sa :: rest, k, sa2 =>
    if sa.staker = k then sa2 :: rest else sa :: updateStaker rest k sa2

/-- Look up the escrow for a (choice, voter) pair of the world's proposal
(the PDA derived from proposal, choice id and voter). -/
def findEscrow (es : List Escrow) (cid voter : Nat) : Option Escrow :=
  es.find? (fun e => e.choice_id = cid ∧ e.voter = voter)

/-- The world touched by the staking and escrow instructions, for one token
mint and one proposal: the resolved fee collector (`get_fee_collector`), the
token-registry authority, the staking pool and its two vault balances, the
staker accounts, the fee collector's token-account balance, the external
wallet balances, the choice escrows and the proposal. -/
structure World where
  feeCollectorKey : Nat
  tokenAuthority : Nat
  pool : StakingPool
  stakers : List StakerAccount
  stakingVault : Nat
  rewardsVault : Nat
  feeCollectorBal : Nat
  wallets : List (Nat × Nat)
  escrows : List Escrow
  proposal : MultiChoiceProposal
  deriving DecidableEq, Repr

/-- Sum of `staked_amount` over a list of staker accounts. -/
def sumStaked (l : List StakerAccount) : Nat :=
  (l.map StakerAccount.staked_amount).sum

/-- The staking invariant of spec section 3:
`StakingPool.total_staked_amount == Σ StakerAccount.staked_amount`. -/
def invariantHolds (w : World) : Prop :=
  w.pool.total_staked_amount = sumStaked w.stakers

/-- Boolean form of `invariantHolds`, for concrete evaluation. -/
def invB (w : World) : Bool :=
  w.pool.total_staked_amount == sumStaked w.stakers

/-- Instruction `stake_tokens`. The `staker_account` is declared `init` in the
`StakeTokens` account struct, so the instruction fails when the PDA already
exists; the handler then always sees a zeroed account, checks the first-deposit
minimum, verifies the fee collector, pays the additive fee (70% of it to the
collector, 30% to the rewards vault), transfers the full `amount` into the
staking vault and credits `amount` to both the new staker account and
`StakingPool.total_staked_amount`. -/
def stakeTokens (w : World) (staker feeCollectorArg amount : Nat) (now : Int) :
    Except Err World :=
  if (findStaker w.stakers staker).isSome then .error .AccountAlreadyInUse
  else if amount < MIN_STAKING_AMOUNT then .error .InsufficientStakingAmount
  else if feeCollectorArg ≠ w.feeCollectorKey then .error .InvalidFeeCollector
  else
    let fee := calculate_fee amount
    let bal0 := getBal w.wallets staker
    let feeStep : Except Err (Nat × Nat × Nat × Nat) :=
      if 0 < fee then
        let p := calculate_protocol_fee fee
        let s := calculate_staking_reward fee
        match debit bal0 p with
        | .error e => .error e
        | .ok bal1 =>
          match debit bal1 s with
          | .error e => .error e
          | .ok bal2 =>
            match add64 w.pool.reward_balance s with
            | .error e => .error e
            | .ok rb2 => .ok (bal2, w.feeCollectorBal + p, w.rewardsVault + s, rb2)
      else .ok (bal0, w.feeCollectorBal, w.rewardsVault, w.pool.reward_balance)
    match feeStep with
    | .error e => .error e
    | .ok (bal2, fc2, rv2, rb2) =>
      match debit bal2 amount with
      | .error e => .error e
      | .ok bal3 =>
        match add64 w.pool.total_staked_amount amount with
        | .error e => .error e
        | .ok tot2 =>
          .ok { w with
            wallets := setBal w.wallets staker bal3
            feeCollectorBal := fc2
            rewardsVault := rv2
            stakingVault := w.stakingVault + amount
            pool := { w.pool with reward_balance := rb2, total_staked_amount := tot2 }
            stakers := w.stakers ++
              [{ staker := staker, token_mint := w.pool.token_mint
                 staked_amount := amount, stake_start_time := now
                 last_claim_time := now, cumulative_rewards := 0
                 auto_compound := false }] }

/-- Pro-rata reward share: `staked * reward_balance / total`, computed in u128
(never overflows for u64 inputs) and cast back with `as u64` (`% 2 ^ 64`). -/
def rewardShare (staked rb total : Nat) : Nat :=
  (staked * rb / total) % (u64Max + 1)

/-- The pending-reward settlement step at the head of `unstake_tokens`:
computes the pro-rata share and either folds it into the withdrawal amount
(`auto_compound`) or transfers it from the rewards vault. Returns the
withdrawal amount, the new reward balance, rewards-vault balance, staker
wallet balance and staker account. -/
def unstakeClaimStep (w : World) (sa : StakerAccount) (staker amount : Nat)
    (now : Int) : Except Err (Nat × Nat × Nat × Nat × StakerAccount) :=
  if 0 < w.pool.total_staked_amount ∧ 0 < sa.staked_amount then
    let rs := rewardShare sa.staked_amount w.pool.reward_balance
      w.pool.total_staked_amount
    if 0 < rs then
      if sa.auto_compound then
        match checkedSub64 w.pool.reward_balance rs with
        | .error e => .error e
        | .ok rb2 =>
          match checkedAdd64 sa.cumulative_rewards rs with
          | .error e => .error e
          | .ok cum2 =>
            match checkedAdd64 amount rs with
            | .error e => .error e
            | .ok amt2 =>
              .ok (amt2, rb2, w.rewardsVault, getBal w.wallets staker,
                { sa with cumulative_rewards := cum2 })
      else
        match debit w.rewardsVault rs with
        | .error e => .error e
        | .ok rv2 =>
          match sub64 w.pool.reward_balance rs with
          | .error e => .error e
          | .ok rb2 =>
            match add64 sa.cumulative_rewards rs with
            | .error e => .error e
            | .ok cum2 =>
              .ok (amount, rb2, rv2, getBal w.wallets staker + rs,
                { sa with last_claim_time := now, cumulative_rewards := cum2 })
    else
      .ok (amount, w.pool.reward_balance, w.rewardsVault,
        getBal w.wallets staker, sa)
  else
    .ok (amount, w.pool.reward_balance, w.rewardsVault,
      getBal w.wallets staker, sa)

/-- Instruction `unstake_tokens`: requires enough staked tokens and an elapsed
minimum staking period anchored at `stake_start_time`; first settles the
pending pro-rata reward (`unstakeClaimStep`), then withdraws the resulting
amount from the staking vault and decrements both the staker account and
`total_staked_amount` by `amount`. -/
def unstakeTokens (w : World) (staker amount : Nat) (now : Int) :
    Except Err World :=
  match findStaker w.stakers staker with
  | none => .error .AccountNotFound
  | some sa =>
    if sa.staked_amount < amount then .error .InsufficientStakedTokens
    else if now - sa.stake_start_time < MIN_STAKING_PERIOD then
      .error .MinimumStakingPeriodNotMet
    else
      match unstakeClaimStep w sa staker amount now with
      | .error e => .error e
      | .ok (unstakeAmt, rb2, rv2, walBal, sa2) =>
        match debit w.stakingVault unstakeAmt with
        | .error e => .error e
        | .ok sv2 =>
          match sub64 sa2.staked_amount amount with
          | .error e => .error e
          | .ok stk2 =>
            match sub64 w.pool.total_staked_amount amount with
            | .error e => .error e
            | .ok tot2 =>
              .ok { w with
                stakingVault := sv2
                rewardsVault := rv2
                wallets := setBal w.wallets staker (walBal + unstakeAmt)
                pool := { w.pool with reward_balance := rb2, total_staked_amount := tot2 }
                stakers := updateStaker w.stakers staker
                  { sa2 with staked_amount := stk2 } }

/-- Instruction `claim_rewards`: a no-op success when the pool total or the
staker's stake is zero, or when the pro-rata share rounds to zero. Under
`auto_compound` the share is added (checked) to both the staker's stake and
the pool total instead of being transferred; either way the pool's reward
balance is decremented. -/
def claimRewards (w : World) (staker : Nat) (now : Int) : Except Err World :=
  match findStaker w.stakers staker with
  | none => .error .AccountNotFound
  | some sa =>
    if w.pool.total_staked_amount = 0 ∨ sa.staked_amount = 0 then .ok w
    else
      let rs := rewardShare sa.staked_amount w.pool.reward_balance
        w.pool.total_staked_amount
      if rs = 0 then .ok w
      else if sa.auto_compound then
        match checkedAdd64 sa.staked_amount rs with
        | .error e => .error e
        | .ok stk2 =>
          match checkedAdd64 w.pool.total_staked_amount rs with
          | .error e => .error e
          | .ok tot2 =>
            match checkedSub64 w.pool.reward_balance rs with
            | .error e => .error e
            | .ok rb2 =>
              match checkedAdd64 sa.cumulative_rewards rs with
              | .error e => .error e
              | .ok cum2 =>
                .ok { w with
                  pool := { w.pool with total_staked_amount := tot2, reward_balance := rb2 }
                  stakers := updateStaker w.stakers staker
                    { sa with staked_amount := stk2, last_claim_time := now
                              cumulative_rewards := cum2 } }
      else
        match debit w.rewardsVault rs with
        | .error e => .error e
        | .ok rv2 =>
          match sub64 w.pool.reward_balance rs with
          | .error e => .error e
          | .ok rb2 =>
            match add64 sa.cumulative_rewards rs with
            | .error e => .error e
            | .ok cum2 =>
              .ok { w with
                rewardsVault := rv2
                wallets := setBal w.wallets staker (getBal w.wallets staker + rs)
                pool := { w.pool with reward_balance := rb2 }
                stakers := updateStaker w.stakers staker
                  { sa with last_claim_time := now, cumulative_rewards := cum2 } }

/-- Instruction `distribute_staking_rewards`: authority-gated; moves `amount`
from the authority's wallet into the rewards vault and adds it to
`reward_balance`. -/
def distributeStakingRewards (w : World) (authority amount : Nat) (now : Int) :
    Except Err World :=
  if authority ≠ w.tokenAuthority then .error .Unauthorized
  else
    match debit (getBal w.wallets authority) amount with
    | .error e => .error e
    | .ok bal2 =>
      match add64 w.pool.reward_balance amount with
      | .error e => .error e
      | .ok rb2 =>
        .ok { w with
          wallets := setBal w.wallets authority bal2
          rewardsVault := w.rewardsVault + amount
          pool := { w.pool with reward_balance := rb2, last_distribution_time := now } }

/-- Instruction `distribute_winning_escrow`. Account-struct checks first (the
signing executor must equal `proposal.token_creator`, the proposal must be
`Executed`), then the handler requires a winning choice matching
`escrow.choice_id` and a valid fee collector; it deducts the 1% fee from
`locked_amount`, transfers the 70% protocol share to the collector and the
30% staking share to the rewards vault (crediting `reward_balance`), and
transfers the remainder to the token creator, all out of the escrow vault. -/
def distributeWinningEscrow (w : World) (executor feeCollectorArg i : Nat) :
    Except Err World :=
  if executor ≠ w.proposal.token_creator then .error .Unauthorized
  else if w.proposal.status ≠ .Executed then .error .ProposalNotExecuted
  else
    match w.escrows.get? i with
    | none => .error .AccountNotFound
    | some esc =>
      match w.proposal.winning_choice with
      | none => .error .NoWinningChoice
      | some wc =>
        if esc.choice_id ≠ wc then .error .NotWinningEscrow
        else if feeCollectorArg ≠ w.feeCollectorKey then .error .InvalidFeeCollector
        else
          let fee := calculate_fee esc.locked_amount
          let amountAfterFee := esc.locked_amount - fee
          let feeStep : Except Err (Nat × Nat × Nat × Nat) :=
            if 0 < fee then
              let p := calculate_protocol_fee fee
              let s := calculate_staking_reward fee
              match debit esc.vault p with
              | .error e => .error e
              | .ok v2 =>
                match debit v2 s with
                | .error e => .error e
                | .ok v3 =>
                  match add64 w.pool.reward_balance s with
                  | .error e => .error e
                  | .ok rb2 => .ok (v3, w.feeCollectorBal + p, w.rewardsVault + s, rb2)
            else .ok (esc.vault, w.feeCollectorBal, w.rewardsVault, w.pool.reward_balance)
          match feeStep with
          | .error e => .error e
          | .ok (v3, fc2, rv2, rb2) =>
            match debit v3 amountAfterFee with
            | .error e => .error e
            | .ok v4 =>
              .ok { w with
                feeCollectorBal := fc2
                rewardsVault := rv2
                wallets := setBal w.wallets w.proposal.token_creator
                  (getBal w.wallets w.proposal.token_creator + amountAfterFee)
                pool := { w.pool with reward_balance := rb2 }
                escrows := w.escrows.set i { esc with vault := v4 } }

/-- Instruction `refund_losing_escrow`. Account-struct checks first (executor
must equal `proposal.token_creator`, proposal must be `Executed`), then the
handler requires a winning choice different from `escrow.choice_id` and a
valid fee collector; it computes the 1% fee, transfers only the 70% protocol
share to the collector (the computed staking share is bound to an unused
variable), transfers `locked_amount - fee` from the escrow vault into the
staking vault, and increments `StakingPool.total_staked_amount` by that
remainder without crediting any staker account. -/
def refundLosingEscrow (w : World) (executor feeCollectorArg i : Nat) :
    Except Err World :=
  if executor ≠ w.proposal.token_creator then .error .Unauthorized
  else if w.proposal.status ≠ .Executed then .error .ProposalNotExecuted
  else
    match w.escrows.get? i with
    | none => .error .AccountNotFound
    | some esc =>
      match w.proposal.winning_choice with
      | none => .error .NoWinningChoice
      | some wc =>
        if esc.choice_id = wc then .error .IsWinningEscrow
        else if feeCollectorArg ≠ w.feeCollectorKey then .error .InvalidFeeCollector
        else
          let fee := calculate_fee esc.locked_amount
          let amountAfterFee := esc.locked_amount - fee
          let feeStep : Except Err (Nat × Nat) :=
            if 0 < fee then
              let p := calculate_protocol_fee fee
              match debit esc.vault p with
              | .error e => .error e
              | .ok v2 => .ok (v2, w.feeCollectorBal + p)
            else .ok (esc.vault, w.feeCollectorBal)
          match feeStep with
          | .error e => .error e
          | .ok (v2, fc2) =>
            match debit v2 amountAfterFee with
            | .error e => .error e
            | .ok v3 =>
              match add64 w.pool.total_staked_amount amountAfterFee with
              | .error e => .error e
              | .ok tot2 =>
                .ok { w with
                  feeCollectorBal := fc2
                  stakingVault := w.stakingVault + amountAfterFee
                  pool := { w.pool with total_staked_amount := tot2 }
                  escrows := w.escrows.set i { esc with vault := v3 } }

/-- Instruction `lock_tokens_for_choice`: requires an `Active` proposal
(account constraint) and a fresh escrow PDA (`init`); verifies the fee
collector, pays the additive fee (staking share to the rewards vault when the
optional staking pool accounts are supplied, otherwise to the collector),
moves `amount` into the new escrow vault, records `locked_amount = amount`
verbatim and records the vote with weight `amount`. -/
def lockTokensForChoice (w : World) (voter feeCollectorArg amount choiceId : Nat)
    (poolProvided : Bool) : Except Err World :=
  if w.proposal.status ≠ .Active then .error .ProposalNotActive
  else if (findEscrow w.escrows choiceId voter).isSome then .error .AccountAlreadyInUse
  else if feeCollectorArg ≠ w.feeCollectorKey then .error .InvalidFeeCollector
  else
    let fee := calculate_fee amount
    let bal0 := getBal w.wallets voter
    let feeStep : Except Err (Nat × Nat × Nat × Nat) :=
      if 0 < fee then
        let p := calculate_protocol_fee fee
        let s := calculate_staking_reward fee
        match debit bal0 p with
        | .error e => .error e
        | .ok bal1 =>
          if poolProvided then
            match debit bal1 s with
            | .error e => .error e
            | .ok bal2 =>
              match add64 w.pool.reward_balance s with
              | .error e => .error e
              | .ok rb2 => .ok (bal2, w.feeCollectorBal + p, w.rewardsVault + s, rb2)
          else
            match debit bal1 s with
            | .error e => .error e
            | .ok bal2 =>
              .ok (bal2, w.feeCollectorBal + p + s, w.rewardsVault, w.pool.reward_balance)
      else .ok (bal0, w.feeCollectorBal, w.rewardsVault, w.pool.reward_balance)
    match feeStep with
    | .error e => .error e
    | .ok (bal2, fc2, rv2, rb2) =>
      match debit bal2 amount with
      | .error e => .error e
      | .ok bal3 =>
        match update_vote_count w.proposal choiceId amount with
        | .error e => .error e
        | .ok prop2 =>
          .ok { w with
            wallets := setBal w.wallets voter bal3
            feeCollectorBal := fc2
            rewardsVault := rv2
            pool := { w.pool with reward_balance := rb2 }
            proposal := prop2
            escrows := w.escrows ++
              [{ voter := voter, choice_id := choiceId
                 locked_amount := amount, vault := amount }] }

/-- Instruction `lock_tokens_for_choice_with_staking_boost`: as
`lock_tokens_for_choice` with mandatory staking-pool accounts, plus the
staker-account checks (`Unauthorized` when the record belongs to someone else,
`NoStakedTokens` when nothing is staked). The vote weight is the
floating-point boosted power `calculate_logarithmic_voting_power`; the f64
logarithm is outside a discrete embedding, so the boosted weight is abstracted
here as an arbitrary argument — every theorem below holds for all its values. -/
def lockTokensForChoiceWithStakingBoost (w : World)
    (voter feeCollectorArg amount choiceId boostedWeight : Nat) : Except Err World :=
  if w.proposal.status ≠ .Active then .error .ProposalNotActive
  else if (findEscrow w.escrows choiceId voter).isSome then .error .AccountAlreadyInUse
  else
    match findStaker w.stakers voter with
    | none => .error .AccountNotFound
    | some sa =>
      if feeCollectorArg ≠ w.feeCollectorKey then .error .InvalidFeeCollector
      else
        let fee := calculate_fee amount
        let bal0 := getBal w.wallets voter
        let feeStep : Except Err (Nat × Nat × Nat × Nat) :=
          if 0 < fee then
            let p := calculate_protocol_fee fee
            let s := calculate_staking_reward fee
            match debit bal0 p with
            | .error e => .error e
            | .ok bal1 =>
              match debit bal1 s with
              | .error e => .error e
              | .ok bal2 =>
                match add64 w.pool.reward_balance s with
                | .error e => .error e
                | .ok rb2 => .ok (bal2, w.feeCollectorBal + p, w.rewardsVault + s, rb2)
          else .ok (bal0, w.feeCollectorBal, w.rewardsVault, w.pool.reward_balance)
        match feeStep with
        | .error e => .error e
        | .ok (bal2, fc2, rv2, rb2) =>
          match debit bal2 amount with
          | .error e => .error e
          | .ok bal3 =>
            if sa.staker ≠ voter then .error .Unauthorized
            else if sa.staked_amount = 0 then .error .NoStakedTokens
            else
              match update_vote_count w.proposal choiceId boostedWeight with
              | .error e => .error e
              | .ok prop2 =>
                .ok { w with
                  wallets := setBal w.wallets voter bal3
                  feeCollectorBal := fc2
                  rewardsVault := rv2
                  pool := { w.pool with reward_balance := rb2 }
                  proposal := prop2
                  escrows := w.escrows ++
                    [{ voter := voter, choice_id := choiceId
                       locked_amount := amount, vault := amount }] }

/-- The operations quantified over by the staking invariant claim. -/
inductive Op where
  | stake (staker feeCollectorArg amount : Nat) (now : Int)
  | unstake (staker amount : Nat) (now : Int)
  | claim (staker : Nat) (now : Int)
  | distributeRewards (authority amount : Nat) (now : Int)
  | distributeWinning (executor feeCollectorArg i : Nat)
  | refundLosing (executor feeCollectorArg i : Nat)
  | lockPlain (voter feeCollectorArg amount choiceId : Nat) (poolProvided : Bool)
  | lockBoost (voter feeCollectorArg amount choiceId boostedWeight : Nat)
  deriving DecidableEq, Repr

/-- One instruction of the program acting on the world. -/
def step : Op → World → Except Err World
  | .stake staker fc amount now, w => stakeTokens w staker fc amount now
  | .unstake staker amount now, w => unstakeTokens w staker amount now
  | .claim staker now, w => claimRewards w staker now
  | .distributeRewards authority amount now, w =>
      distributeStakingRewards w authority amount now
  | .distributeWinning executor fc i, w => distributeWinningEscrow w executor fc i
  | .refundLosing executor fc i, w => refundLosingEscrow w executor fc i
  | .lockPlain voter fc amount choiceId pp, w =>
      lockTokensForChoice w voter fc amount choiceId pp
  | .lockBoost voter fc amount choiceId bw, w =>
      lockTokensForChoiceWithStakingBoost w voter fc amount choiceId bw

/-- An empty staking pool. -/
def egPool0 : StakingPool :=
  { token_mint := 0, reward_balance := 0, total_staked_amount := 0
    last_distribution_time := 0, distribution_interval := 0 }

/-- An executed two-choice proposal with winning choice 0, created by
token creator 7. -/
def egExecutedProposal : MultiChoiceProposal :=
  { id := 0, proposer := 9, token_creator := 7, title := "t", description := "d"
    choices := ["a", "b"], choice_vote_counts := [60, 50]
    execution_type := .CustomAction, execution_payload := []
    status := .Executed, created_at := 0, ends_at := 10, winning_choice := some 0 }

/-- An active two-choice proposal with no votes yet. -/
def egActiveProposal : MultiChoiceProposal :=
  { id := 0, proposer := 9, token_creator := 7, title := "t", description := "d"
    choices := ["a", "b"], choice_vote_counts := [0, 0]
    execution_type := .CustomAction, execution_payload := []
    status := .Active, created_at := 0, ends_at := 10, winning_choice := none }

/-- A world with one staker holding 100 staked tokens (pool total 100) and a
losing escrow of 50 locked tokens on the executed proposal. -/
def c1World : World :=
  { feeCollectorKey := 0, tokenAuthority := 3
    pool := { egPool0 with total_staked_amount := 100 }
    stakers := [{ staker := 1, token_mint := 0, staked_amount := 100
                  stake_start_time := 0, last_claim_time := 0
                  cumulative_rewards := 0, auto_compound := false }]
    stakingVault := 100, rewardsVault := 0, feeCollectorBal := 0
    wallets := []
    escrows := [{ voter := 2, choice_id := 1, locked_amount := 50, vault := 50 }]
    proposal := egExecutedProposal }

/-- A world with one staker holding 0 staked tokens and an empty pool
(the staking invariant holds: 0 = 0). -/
def c1WitnessWorld : World :=
  { feeCollectorKey := 0, tokenAuthority := 3
    pool := egPool0
    stakers := [{ staker := 1, token_mint := 0, staked_amount := 0
                  stake_start_time := 0, last_claim_time := 0
                  cumulative_rewards := 0, auto_compound := false }]
    stakingVault := 0, rewardsVault := 0, feeCollectorBal := 0
    wallets := [], escrows := [], proposal := egExecutedProposal }

/-- A world with a losing escrow of 1000 locked tokens (vault fully funded)
on the executed proposal. -/
def c2World : World :=
  { feeCollectorKey := 0, tokenAuthority := 3
    pool := { egPool0 with total_staked_amount := 100 }
    stakers := [{ staker := 1, token_mint := 0, staked_amount := 100
                  stake_start_time := 0, last_claim_time := 0
                  cumulative_rewards := 0, auto_compound := false }]
    stakingVault := 100, rewardsVault := 0, feeCollectorBal := 0
    wallets := []
    escrows := [{ voter := 2, choice_id := 1, locked_amount := 1000, vault := 1000 }]
    proposal := egExecutedProposal }

/-- A world with a winning escrow of 150 locked tokens (vault fully funded)
on the executed proposal. -/
def c3World : World :=
  { feeCollectorKey := 0, tokenAuthority := 3
    pool := egPool0
    stakers := [], stakingVault := 0, rewardsVault := 0, feeCollectorBal := 0
    wallets := []
    escrows := [{ voter := 2, choice_id := 0, locked_amount := 150, vault := 150 }]
    proposal := egExecutedProposal }

/-- A world where voter 1 holds 50 tokens and the proposal is active. -/
def c5World : World :=
  { feeCollectorKey := 0, tokenAuthority := 3
    pool := egPool0
    stakers := [], stakingVault := 0, rewardsVault := 0, feeCollectorBal := 0
    wallets := [(1, 50)], escrows := [], proposal := egActiveProposal }

/-- A world with no staker accounts where wallet 1 holds 1000 tokens. -/
def c8World : World :=
  { feeCollectorKey := 0, tokenAuthority := 3
    pool := egPool0
    stakers := [], stakingVault := 0, rewardsVault := 0, feeCollectorBal := 0
    wallets := [(1, 1000)], escrows := [], proposal := egActiveProposal }

/-- The second stake of the same staker in sequence after a first stake of
150 tokens out of `c8World`. -/
def c8Second : Except Err World :=
  match stakeTokens c8World 1 0 150 0 with
  | .ok w1 => stakeTokens w1 1 0 50 5
  | .error e => .error e

/-- A governance record with authority 3 and no vote threshold. -/
def c6Gov : Governance :=
  { authority := 3, token_mint := 0, proposal_count := 1, voting_period := 10
    min_vote_threshold := 0, proposal_threshold := 1
    proposal_threshold_percentage := 0, is_active := true, created_at := 0 }

/-- An active four-choice proposal with votes `[3, 7, 7, 2]`. -/
def c6Prop : MultiChoiceProposal :=
  { id := 0, proposer := 9, token_creator := 3, title := "t", description := "d"
    choices := ["a", "b", "c", "e"], choice_vote_counts := [3, 7, 7, 2]
    execution_type := .CustomAction, execution_payload := []
    status := .Active, created_at := 0, ends_at := 0, winning_choice := none }

/-- The expected result of executing `c6Prop`: winner index 1, first of the
two tied maxima. -/
def c6PropAfter : MultiChoiceProposal :=
  { c6Prop with winning_choice := some 1, status := .Executed }

/-- An active update-settings proposal whose payload is empty (hence not a
valid 25-byte borsh `UpdateSettingsPayload`). -/
def c7Prop : MultiChoiceProposal :=
  { id := 0, proposer := 9, token_creator := 3, title := "t", description := "d"
    choices := ["a", "b"], choice_vote_counts := [1, 0]
    execution_type := .UpdateSettings, execution_payload := []
    status := .Active, created_at := 0, ends_at := 0, winning_choice := none }

theorem add64_ok {a b c : Nat} : add64 a b = .ok c ↔ a + b ≤ u64Max ∧ c = a + b := by
  unfold add64; split <;> simp_all [eq_comm]

theorem sub64_ok {a b c : Nat} : sub64 a b = .ok c ↔ b ≤ a ∧ c = a - b := by
  unfold sub64; split <;> simp_all [eq_comm]

theorem checkedAdd64_ok {a b c : Nat} :
    checkedAdd64 a b = .ok c ↔ a + b ≤ u64Max ∧ c = a + b := by
  unfold checkedAdd64; split <;> simp_all [eq_comm]

theorem checkedSub64_ok {a b c : Nat} :
    checkedSub64 a b = .ok c ↔ b ≤ a ∧ c = a - b := by
  unfold checkedSub64; split <;> simp_all [eq_comm]

theorem debit_ok {bal amt c : Nat} :
    debit bal amt = .ok c ↔ amt ≤ bal ∧ c = bal - amt := by
  unfold debit; split <;> simp_all [eq_comm]

theorem sumStaked_nil : sumStaked [] = 0 := rfl

theorem sumStaked_cons (sa : StakerAccount) (l : List StakerAccount) :
    sumStaked (sa :: l) = sa.staked_amount + sumStaked l := by
  simp [sumStaked]

theorem sumStaked_append (l : List StakerAccount) (sa : StakerAccount) :
    sumStaked (l ++ [sa]) = sumStaked l + sa.staked_amount := by
  simp [sumStaked]

theorem sumStaked_updateStaker (k : Nat) (sa sa2 : StakerAccount) :
    ∀ l : List StakerAccount, findStaker l k = some sa →
      sumStaked (updateStaker l k sa2) + sa.staked_amount
        = sumStaked l + sa2.staked_amount := by
  intro l
  induction l with
  | nil => intro h; simp [findStaker] at h
  | cons x rest ih =>
    intro h
    by_cases hx : x.staker = k
    · have hxa : x = sa := by
        simp [findStaker, List.find?_cons, hx] at h; exact h
      subst hxa
      simp only [updateStaker, if_pos hx, sumStaked_cons]
      omega
    · have h2 : findStaker rest k = some sa := by
        simpa [findStaker, List.find?_cons, hx] using h
      have := ih h2
      simp only [updateStaker, if_neg hx, sumStaked_cons]
      omega

theorem staked_le_sum {l : List StakerAccount} {k : Nat} {sa : StakerAccount}
    (h : findStaker l k = some sa) : sa.staked_amount ≤ sumStaked l := by
  have hmem : sa ∈ l := List.mem_of_find?_eq_some h
  have : sa.staked_amount ∈ l.map StakerAccount.staked_amount :=
    List.mem_map_of_mem _ hmem
  exact List.single_le_sum (fun x _ => Nat.zero_le x) _ this

theorem sumStaked_updateStaker_eq {l : List StakerAccount} {k : Nat}
    {sa : StakerAccount} (h : findStaker l k = some sa) (sa2 : StakerAccount) :
    sumStaked (updateStaker l k sa2)
      = sumStaked l - sa.staked_amount + sa2.staked_amount := by
  have h1 := sumStaked_updateStaker k sa sa2 l h
  have h2 := staked_le_sum h
  omega

theorem stakeTokens_diff {w : World} {s f a : Nat} {t : Int} {w2 : World}
    (h : stakeTokens w s f a t = .ok w2) :
    w2.pool.total_staked_amount + sumStaked w.stakers
      = w.pool.total_staked_amount + sumStaked w2.stakers := by
  simp only [stakeTokens] at h
  repeat' split at h
  all_goals try exact Except.noConfusion h
  all_goals rw [Except.ok.injEq] at h
  all_goals subst h
  all_goals simp_all [add64_ok, sub64_ok, debit_ok, sumStaked_append]
  all_goals omega

theorem distributeStakingRewards_diff {w : World} {au a : Nat} {t : Int} {w2 : World}
    (h : distributeStakingRewards w au a t = .ok w2) :
    w2.pool.total_staked_amount + sumStaked w.stakers
      = w.pool.total_staked_amount + sumStaked w2.stakers := by
  simp only [distributeStakingRewards] at h
  repeat' split at h
  all_goals try exact Except.noConfusion h
  all_goals rw [Except.ok.injEq] at h
  all_goals subst h
  all_goals rfl

theorem distributeWinningEscrow_diff {w : World} {e f i : Nat} {w2 : World}
    (h : distributeWinningEscrow w e f i = .ok w2) :
    w2.pool.total_staked_amount + sumStaked w.stakers
      = w.pool.total_staked_amount + sumStaked w2.stakers := by
  simp only [distributeWinningEscrow] at h
  repeat' split at h
  all_goals try exact Except.noConfusion h
  all_goals rw [Except.ok.injEq] at h
  all_goals subst h
  all_goals rfl

theorem lockTokensForChoice_diff {w : World} {v f a c : Nat} {pp : Bool} {w2 : World}
    (h : lockTokensForChoice w v f a c pp = .ok w2) :
    w2.pool.total_staked_amount + sumStaked w.stakers
      = w.pool.total_staked_amount + sumStaked w2.stakers := by
  simp only [lockTokensForChoice] at h
  repeat' split at h
  all_goals try exact Except.noConfusion h
  all_goals rw [Except.ok.injEq] at h
  all_goals subst h
  all_goals rfl

theorem lockTokensForChoiceWithStakingBoost_diff {w : World} {v f a c bw : Nat}
    {w2 : World} (h : lockTokensForChoiceWithStakingBoost w v f a c bw = .ok w2) :
    w2.pool.total_staked_amount + sumStaked w.stakers
      = w.pool.total_staked_amount + sumStaked w2.stakers := by
  simp only [lockTokensForChoiceWithStakingBoost] at h
  repeat' split at h
  all_goals try exact Except.noConfusion h
  all_goals rw [Except.ok.injEq] at h
  all_goals subst h
  all_goals rfl

theorem claimRewards_diff {w : World} {s : Nat} {t : Int} {w2 : World}
    (h : claimRewards w s t = .ok w2) :
    w2.pool.total_staked_amount + sumStaked w.stakers
      = w.pool.total_staked_amount + sumStaked w2.stakers := by
  simp only [claimRewards] at h
  cases hfind : findStaker w.stakers s with
  | none => rw [hfind] at h; exact Except.noConfusion h
  | some sa =>
    simp only [hfind] at h
    have hle := staked_le_sum hfind
    repeat' split at h
    all_goals try exact Except.noConfusion h
    all_goals rw [Except.ok.injEq] at h
    all_goals subst h
    all_goals
      simp_all [checkedAdd64_ok, checkedSub64_ok, add64_ok, sub64_ok, debit_ok,
        sumStaked_updateStaker_eq hfind]
    all_goals omega

theorem unstakeClaimStep_staked {w : World} {sa : StakerAccount} {s a : Nat}
    {t : Int} {q : Nat × Nat × Nat × Nat × StakerAccount}
    (h : unstakeClaimStep w sa s a t = .ok q) :
    q.2.2.2.2.staked_amount = sa.staked_amount := by
  simp only [unstakeClaimStep] at h
  repeat' split at h
  all_goals try exact Except.noConfusion h
  all_goals rw [Except.ok.injEq] at h
  all_goals subst h
  all_goals rfl

theorem unstakeTokens_diff {w : World} {s a : Nat} {t : Int} {w2 : World}
    (h : unstakeTokens w s a t = .ok w2) :
    w2.pool.total_staked_amount + sumStaked w.stakers
      = w.pool.total_staked_amount + sumStaked w2.stakers := by
  simp only [unstakeTokens] at h
  cases hfind : findStaker w.stakers s with
  | none => rw [hfind] at h; exact Except.noConfusion h
  | some sa =>
    simp only [hfind] at h
    have hle := staked_le_sum hfind
    split at h
    · exact Except.noConfusion h
    split at h
    · exact Except.noConfusion h
    cases hcs : unstakeClaimStep w sa s a t with
    | error e => rw [hcs] at h; exact Except.noConfusion h
    | ok q =>
      obtain ⟨ua, rb2, rv2, wb, sa2⟩ := q
      rw [hcs] at h
      have hst : sa2.staked_amount = sa.staked_amount := unstakeClaimStep_staked hcs
      repeat' split at h
      all_goals try exact Except.noConfusion h
      rw [Except.ok.injEq] at h
      subst h
      simp_all [sub64_ok, debit_ok, sumStaked_updateStaker_eq hfind]
      omega

theorem findWinnerAux_spec (l : List Nat) : ∀ i mx wi : Nat,
    (findWinnerAux l i mx wi = wi ∧ ∀ j, j < l.length → l.getD j 0 ≤ mx) ∨
    (∃ j, j < l.length ∧ findWinnerAux l i mx wi = i + j ∧ mx < l.getD j 0 ∧
      (∀ k, k < l.length → l.getD k 0 ≤ l.getD j 0) ∧
      (∀ k, k < j → l.getD k 0 < l.getD j 0)) := by
  induction l with
  | nil =>
    intro i mx wi
    left
    exact ⟨rfl, fun j hj => by simp at hj⟩
  | cons v rest ih =>
    intro i mx wi
    by_cases hv : v > mx
    · rcases ih (i + 1) v i with ⟨heq, hall⟩ | ⟨j, hj, heq, hmx, hmax, hfirst⟩
      · right
        refine ⟨0, by simp, ?_, by simpa using hv, ?_, ?_⟩
        · rw [findWinnerAux, if_pos hv, heq]; omega
        · intro k hk
          cases k with
          | zero => simp
          | succ k2 =>
            rw [List.getD_cons_succ, List.getD_cons_zero]
            exact hall k2 (by simpa using hk)
        · intro k hk; omega
      · right
        refine ⟨j + 1, by simpa using hj, ?_, ?_, ?_, ?_⟩
        · rw [findWinnerAux, if_pos hv, heq]; omega
        · rw [List.getD_cons_succ]; omega
        · intro k hk
          cases k with
          | zero =>
            rw [List.getD_cons_zero, List.getD_cons_succ]; omega
          | succ k2 =>
            rw [List.getD_cons_succ, List.getD_cons_succ]
            exact hmax k2 (by simpa using hk)
        · intro k hk
          cases k with
          | zero =>
            rw [List.getD_cons_zero, List.getD_cons_succ]; omega
          | succ k2 =>
            rw [List.getD_cons_succ, List.getD_cons_succ]
            exact hfirst k2 (by omega)
    · rcases ih (i + 1) mx wi with ⟨heq, hall⟩ | ⟨j, hj, heq, hmx, hmax, hfirst⟩
      · left
        constructor
        · rw [findWinnerAux, if_neg hv, heq]
        · intro j hj
          cases j with
          | zero => rw [List.getD_cons_zero]; omega
          | succ k2 =>
            rw [List.getD_cons_succ]
            exact hall k2 (by simpa using hj)
      · right
        refine ⟨j + 1, by simpa using hj, ?_, ?_, ?_, ?_⟩
        · rw [findWinnerAux, if_neg hv, heq]; omega
        · rw [List.getD_cons_succ]; omega
        · intro k hk
          cases k with
          | zero =>
            rw [List.getD_cons_zero, List.getD_cons_succ]; omega
          | succ k2 =>
            rw [List.getD_cons_succ, List.getD_cons_succ]
            exact hmax k2 (by simpa using hk)
        · intro k hk
          cases k with
          | zero =>
            rw [List.getD_cons_zero, List.getD_cons_succ]; omega
          | succ k2 =>
            rw [List.getD_cons_succ, List.getD_cons_succ]
            exact hfirst k2 (by omega)

theorem findWinner_spec (counts : List Nat) (h : 0 < counts.length) :
    findWinner counts < counts.length ∧
    (∀ j, j < counts.length → counts.getD j 0 ≤ counts.getD (findWinner counts) 0) ∧
    (∀ j, j < findWinner counts → counts.getD j 0 < counts.getD (findWinner counts) 0) := by
  unfold findWinner
  rcases findWinnerAux_spec counts 0 0 0 with ⟨heq, hall⟩ | ⟨j, hj, heq, hmx, hmax, hfirst⟩
  · rw [heq]
    have h0 := hall 0 h
    refine ⟨h, ?_, ?_⟩
    · intro j hj
      have := hall j hj
      omega
    · intro j hj; omega
  · rw [heq]
    simp only [Nat.zero_add]
    exact ⟨hj, hmax, hfirst⟩

theorem refundLosingEscrow_ok {w : World} {e f i : Nat} {w2 : World}
    (h : refundLosingEscrow w e f i = .ok w2) :
    w2.stakers = w.stakers ∧
    ∃ esc, w.escrows.get? i = some esc ∧
      w2.pool.total_staked_amount = w.pool.total_staked_amount +
        (esc.locked_amount - calculate_fee esc.locked_amount) := by
  simp only [refundLosingEscrow] at h
  split at h
  · exact Except.noConfusion h
  split at h
  · exact Except.noConfusion h
  cases hesc : w.escrows.get? i with
  | none => rw [hesc] at h; exact Except.noConfusion h
  | some esc =>
    simp only [hesc] at h
    cases hwc : w.proposal.winning_choice with
    | none => rw [hwc] at h; exact Except.noConfusion h
    | some wc =>
      simp only [hwc] at h
      split at h
      · exact Except.noConfusion h
      split at h
      · exact Except.noConfusion h
      repeat' split at h
      all_goals try exact Except.noConfusion h
      all_goals rw [Except.ok.injEq] at h
      all_goals subst h
      all_goals refine ⟨rfl, esc, rfl, ?_⟩
      all_goals simp_all [add64_ok, debit_ok]

/-- C1: the claimed invariant `total_staked_amount = Σ staked_amount` is NOT
preserved by every operation: starting from `c1World`, where it holds,
`refund_losing_escrow` succeeds and breaks it (it adds the redirected
remainder to the pool total without crediting any staker). -/
theorem c1_counterexample :
    invB c1World = true ∧
    (step (.refundLosing 7 0 0) c1World).toOption.map invB = some false := by
  exact ⟨rfl, rfl⟩

/-- C1 (amended): the invariant `StakingPool.total_staked_amount =
Σ StakerAccount.staked_amount` is preserved by `stake_tokens`,
`unstake_tokens`, `claim_rewards`, `distribute_winning_escrow`,
`distribute_staking_rewards` and both lock operations; `refund_losing_escrow`
instead leaves the staker sum unchanged and increases the pool total by the
redirected remainder `locked_amount - fee`, so it preserves the invariant
only when that remainder is zero. -/
theorem c1_staking_invariant (w : World) (op : Op) (w2 : World)
    (hinv : invariantHolds w) (h : step op w = .ok w2) :
    ((∀ e f i, op ≠ .refundLosing e f i) → invariantHolds w2) ∧
    (∀ e f i, op = .refundLosing e f i →
      sumStaked w2.stakers = sumStaked w.stakers ∧
      ∃ esc, w.escrows.get? i = some esc ∧
        w2.pool.total_staked_amount = w.pool.total_staked_amount +
          (esc.locked_amount - calculate_fee esc.locked_amount)) := by
  constructor
  · intro hne
    unfold invariantHolds at hinv ⊢
    cases op with
    | stake s f a t =>
      simp only [step] at h
      have := stakeTokens_diff h
      omega
    | unstake s a t =>
      simp only [step] at h
      have := unstakeTokens_diff h
      omega
    | claim s t =>
      simp only [step] at h
      have := claimRewards_diff h
      omega
    | distributeRewards au a t =>
      simp only [step] at h
      have := distributeStakingRewards_diff h
      omega
    | distributeWinning e f i =>
      simp only [step] at h
      have := distributeWinningEscrow_diff h
      omega
    | refundLosing e f i => exact absurd rfl (hne e f i)
    | lockPlain v f a c pp =>
      simp only [step] at h
      have := lockTokensForChoice_diff h
      omega
    | lockBoost v f a c bw =>
      simp only [step] at h
      have := lockTokensForChoiceWithStakingBoost_diff h
      omega
  · intro e f i hop
    subst hop
    simp only [step] at h
    obtain ⟨hs, esc, hesc, htot⟩ := refundLosingEscrow_ok h
    exact ⟨by rw [hs], esc, hesc, htot⟩

theorem c1_staking_invariant_witness : invariantHolds c1WitnessWorld :=
  (c1_staking_invariant c1WitnessWorld (.claim 1 0) c1WitnessWorld rfl rfl).1
    (fun _ _ _ hco => Op.noConfusion hco)

/-- C2: on the losing escrow of 1000 locked tokens, the code deducts the FULL
1% fee (10) from the redirected principal, not just the 70% protocol share
(7): only 7 tokens reach the collector, 990 (not 993) reach the staking vault
and are credited to `total_staked_amount`, and the 3-token staking share is
left stranded in the escrow vault, contradicting the comment in the source
that claims it is folded into the redirected amount. -/
theorem c2_refund_full_fee_deducted :
    (refundLosingEscrow c2World 7 0 0).toOption.map
        (fun w2 => (w2.pool.total_staked_amount, w2.stakingVault,
          w2.feeCollectorBal, w2.escrows.map Escrow.vault,
          w2.rewardsVault, w2.pool.reward_balance))
      = some (100 + 990, 100 + 990, 7, [3], 0, 0) := by
  exact rfl

/-- C8: out of `c8World` (staker 1 holds no staker account), a first stake of
150 succeeds and initializes the account (staked 150, both timestamps at the
call time, zero cumulative rewards, auto-compound off); but a second stake of
50 by the same staker fails with an account-already-in-use error, because the
`StakeTokens` account struct declares `staker_account` with `init` rather than
`init_if_needed` — the handler's own top-up branch is unreachable. A first
stake below 100 fails with `InsufficientStakingAmount`. -/
theorem c8_second_stake_rejected :
    (stakeTokens c8World 1 0 150 0).toOption.map
        (fun w1 => (findStaker w1.stakers 1).map
          (fun sa => (sa.staked_amount, sa.stake_start_time, sa.last_claim_time,
            sa.cumulative_rewards, sa.auto_compound)))
      = some (some (150, 0, 0, 0, false)) ∧
    c8Second = .error .AccountAlreadyInUse ∧
    stakeTokens c8World 1 0 50 0 = .error .InsufficientStakingAmount := by
  exact ⟨rfl, rfl, rfl⟩

/-- C10: both settlement instructions succeed only for the signing executor
equal to `proposal.token_creator` and fail with `Unauthorized` for every
other caller (the account constraint at the head of `DistributeWinningEscrow`
and `RefundLosingEscrow`). -/
theorem c10_settlement_authorization (w : World) (executor fcArg i : Nat) :
    (executor ≠ w.proposal.token_creator →
      distributeWinningEscrow w executor fcArg i = .error .Unauthorized ∧
      refundLosingEscrow w executor fcArg i = .error .Unauthorized) ∧
    (∀ w2, distributeWinningEscrow w executor fcArg i = .ok w2 →
      executor = w.proposal.token_creator) ∧
    (∀ w2, refundLosingEscrow w executor fcArg i = .ok w2 →
      executor = w.proposal.token_creator) := by
  refine ⟨fun hne => ⟨?_, ?_⟩, fun w2 h => ?_, fun w2 h => ?_⟩
  · simp only [distributeWinningEscrow, if_pos hne]
  · simp only [refundLosingEscrow, if_pos hne]
  · by_contra hne
    simp only [distributeWinningEscrow, if_pos hne] at h
    exact Except.noConfusion h
  · by_contra hne
    simp only [refundLosingEscrow, if_pos hne] at h
    exact Except.noConfusion h

theorem c10_settlement_authorization_witness :
    distributeWinningEscrow c1World 5 0 0 = .error .Unauthorized ∧
    refundLosingEscrow c1World 5 0 0 = .error .Unauthorized :=
  (c10_settlement_authorization c1World 5 0 0).1 (by decide)

/-- C4: `update_vote_count` fails with `InvalidChoiceId` when the choice id is
not below `choices.len()`; otherwise it adds the weight to
`choice_vote_counts[choiceId]`, and when that u64 addition would overflow the
operation aborts with a fatal arithmetic error instead of wrapping. -/
theorem c4_record_vote (p : MultiChoiceProposal) (choiceId amount : Nat)
    (hlen : p.choice_vote_counts.length = p.choices.length) :
    (p.choices.length ≤ choiceId →
      update_vote_count p choiceId amount = .error .InvalidChoiceId) ∧
    (choiceId < p.choices.length →
      (p.choice_vote_counts.getD choiceId 0 + amount ≤ u64Max →
        update_vote_count p choiceId amount =
          .ok { p with
                choice_vote_counts := p.choice_vote_counts.set choiceId
                  (p.choice_vote_counts.getD choiceId 0 + amount) }) ∧
      (u64Max < p.choice_vote_counts.getD choiceId 0 + amount →
        update_vote_count p choiceId amount = .error .ArithmeticOverflow)) := by
  constructor
  · intro hge
    simp only [update_vote_count,
      if_neg (by omega : ¬ choiceId < p.choices.length)]
  · intro hlt
    constructor
    · intro hle
      simp only [update_vote_count, if_pos hlt,
        if_pos (by omega : choiceId < p.choice_vote_counts.length),
        add64, if_pos hle]
    · intro hgt
      simp only [update_vote_count, if_pos hlt,
        if_pos (by omega : choiceId < p.choice_vote_counts.length),
        add64, if_neg (by omega : ¬ p.choice_vote_counts.getD choiceId 0 + amount ≤ u64Max)]

theorem c4_record_vote_witness :
    update_vote_count egActiveProposal 2 5 = .error .InvalidChoiceId ∧
    update_vote_count egActiveProposal 1 5 =
      .ok { egActiveProposal with choice_vote_counts := [0, 5] } :=
  ⟨(c4_record_vote egActiveProposal 2 5 rfl).1 (by decide),
   ((c4_record_vote egActiveProposal 1 5 rfl).2 (by decide)).1 (by decide)⟩

/-- C5: the fee splitter computes `fee = floor(amount/100)`,
`protocol = floor(fee*70/100)`, `staking = floor(fee*30/100)`; the two shares
never exceed the fee, and for some fee (for example fee 5, from amount 500)
their sum is strictly smaller; `fee 1000 = 10` splits into 7 and 3;
`fee 50 = 0`, and a fee-bearing operation (`lock_tokens_for_choice` of
50 tokens) still succeeds, transferring nothing to the fee collector or the
rewards vault. -/
theorem c5_fee_splitter :
    (∀ amount : Nat, calculate_fee amount = amount * 1 / 100) ∧
    (∀ fee : Nat, calculate_protocol_fee fee = fee * 70 / 100 ∧
      calculate_staking_reward fee = fee * 30 / 100 ∧
      calculate_protocol_fee fee + calculate_staking_reward fee ≤ fee) ∧
    (calculate_fee 500 = 5 ∧
      calculate_protocol_fee 5 + calculate_staking_reward 5 < 5) ∧
    (calculate_fee 1000 = 10 ∧ calculate_protocol_fee 10 = 7 ∧
      calculate_staking_reward 10 = 3) ∧
    calculate_fee 50 = 0 ∧
    ((lockTokensForChoice c5World 1 0 50 0 true).toOption.map
        (fun w2 => (w2.feeCollectorBal, w2.rewardsVault, w2.escrows.map Escrow.vault))
      = some (0, 0, [50])) := by
  refine ⟨fun amount => rfl, fun fee => ⟨rfl, rfl, ?_⟩, ?_, ?_, rfl, rfl⟩
  · have h70 := Nat.div_add_mod (fee * 70) 100
    have h30 := Nat.div_add_mod (fee * 30) 100
    have m70 := Nat.mod_lt (fee * 70) (by omega : 0 < 100)
    have m30 := Nat.mod_lt (fee * 30) (by omega : 0 < 100)
    simp only [calculate_protocol_fee, calculate_staking_reward,
      PROTOCOL_FEE_PERCENTAGE, STAKING_REWARDS_PERCENTAGE]
    omega
  · exact ⟨rfl, by decide⟩
  · exact ⟨rfl, rfl, rfl⟩

theorem getBal_setBal : ∀ (ws : List (Nat × Nat)) (k v : Nat),
    getBal (setBal ws k v) k = v := by
  intro ws k v
  induction ws with
  | nil => simp [setBal, getBal]
  | cons p rest ih =>
    obtain ⟨k2, v2⟩ := p
    by_cases hk : k2 = k
    · simp [setBal, getBal, hk]
    · simp [setBal, if_neg hk, getBal, ih]

theorem escGet?_some_lt {l : List Escrow} {i : Nat} {a : Escrow}
    (h : l.get? i = some a) : i < l.length := by
  induction l generalizing i with
  | nil => simp [List.get?] at h
  | cons x rest ih =>
    cases i with
    | zero => simp
    | succ j =>
      simp only [List.get?] at h
      have := ih h
      simp only [List.length_cons]
      omega

theorem escGet?_set_self : ∀ (l : List Escrow) (i : Nat) (a : Escrow),
    i < l.length → (l.set i a).get? i = some a := by
  intro l
  induction l with
  | nil => intro i a h; simp at h
  | cons x rest ih =>
    intro i a h
    cases i with
    | zero => rfl
    | succ j =>
      simp only [List.set, List.get?]
      exact ih j a (by simp at h; omega)

set_option maxHeartbeats 3200000 in
/-- C6: a successful `execute_proposal` marks the proposal `Executed` and sets
`winning_choice` to the index of the maximum vote count, ties broken by the
lowest index (the loop only replaces the running maximum on a strictly larger
count); in particular the winner of `[3, 7, 7, 2]` is index 1, not 2. -/
theorem c6_execute_winner (executor : Nat) (now : Int) (tokenAuthority : Nat)
    (g g2 : Governance) (p p2 : MultiChoiceProposal)
    (h : executeProposal executor now tokenAuthority g p = .ok (g2, p2))
    (hne : 0 < p.choice_vote_counts.length)
    (h256 : p.choice_vote_counts.length ≤ 256) :
    p2.status = .Executed ∧
    p2.winning_choice = some (findWinner p.choice_vote_counts) ∧
    findWinner p.choice_vote_counts < p.choice_vote_counts.length ∧
    (∀ j, j < p.choice_vote_counts.length →
      p.choice_vote_counts.getD j 0 ≤
        p.choice_vote_counts.getD (findWinner p.choice_vote_counts) 0) ∧
    (∀ j, j < findWinner p.choice_vote_counts →
      p.choice_vote_counts.getD j 0 <
        p.choice_vote_counts.getD (findWinner p.choice_vote_counts) 0) ∧
    findWinner [3, 7, 7, 2] = 1 := by
  obtain ⟨hwlt, hmax, hfirst⟩ := findWinner_spec p.choice_vote_counts hne
  have hmod : findWinner p.choice_vote_counts % 256 = findWinner p.choice_vote_counts :=
    Nat.mod_eq_of_lt (by omega)
  simp only [executeProposal] at h
  repeat' split at h
  all_goals try exact Except.noConfusion h
  all_goals rw [Except.ok.injEq, Prod.mk.injEq] at h
  all_goals obtain ⟨hg, hp⟩ := h
  all_goals subst hp
  all_goals exact ⟨rfl, by simp [executedProposal, hmod], hwlt, hmax, hfirst, by decide⟩

theorem c6_execute_winner_witness :
    c6PropAfter.status = .Executed ∧
    c6PropAfter.winning_choice = some (findWinner [3, 7, 7, 2]) :=
  ⟨(c6_execute_winner 3 1 3 c6Gov c6Gov c6Prop c6PropAfter rfl (by decide)
      (by decide)).1,
   (c6_execute_winner 3 1 3 c6Gov c6Gov c6Prop c6PropAfter rfl (by decide)
      (by decide)).2.1⟩

/-- C7: on an update-settings proposal whose preliminary checks pass, a
payload that does not deserialize is rejected with `InvalidPayload`; invalid
field values (non-positive voting period or thresholds, percentage above 100)
make the call fail with `InvalidGovernanceSettings` or
`InvalidThresholdPercentage`; and every error leaves the committed governance
and proposal records exactly as they were (all-or-nothing commit). -/
theorem c7_update_settings_validation (executor : Nat) (now : Int)
    (tokenAuthority : Nat) (g : Governance) (p : MultiChoiceProposal)
    (htype : p.execution_type = .UpdateSettings)
    (hauth : executor = tokenAuthority)
    (htime : now > p.ends_at)
    (hactive : p.status = .Active)
    (hthr : g.min_vote_threshold ≤ p.choice_vote_counts.sum)
    (hwin : findWinner p.choice_vote_counts < p.choices.length) :
    (deserializeUpdateSettingsPayload p.execution_payload = none →
      executeProposal executor now tokenAuthority g p = .error .InvalidPayload) ∧
    (∀ pl, deserializeUpdateSettingsPayload p.execution_payload = some pl →
      (pl.voting_period_days ≤ 0 ∨ pl.min_vote_threshold = 0 ∨
        pl.proposal_threshold = 0 ∨ 100 < pl.proposal_threshold_percentage) →
      executeProposal executor now tokenAuthority g p =
          .error .InvalidGovernanceSettings ∨
        executeProposal executor now tokenAuthority g p =
          .error .InvalidThresholdPercentage) ∧
    (∀ e, executeProposal executor now tokenAuthority g p = .error e →
      commitExec g p (executeProposal executor now tokenAuthority g p) = (g, p)) := by
  have hred1 : ¬¬(executor = tokenAuthority ∨ executor = g.authority) :=
    not_not_intro (Or.inl hauth)
  have hred2 : ¬¬(now > p.ends_at) := not_not_intro htime
  have hred3 : ¬(p.status ≠ ProposalStatus.Active) := not_not_intro hactive
  have hred4 : ¬(p.choice_vote_counts.sum < g.min_vote_threshold) := by omega
  have hred5 : ¬(executor ≠ tokenAuthority) := not_not_intro hauth
  refine ⟨?_, ?_, ?_⟩
  · intro hdes
    simp only [executeProposal, if_neg hred1, if_neg hred2, if_neg hred3,
      if_neg hred4, if_pos hwin, htype, if_neg hred5, hdes]
  · intro pl hdes hbad
    simp only [executeProposal, if_neg hred1, if_neg hred2, if_neg hred3,
      if_neg hred4, if_pos hwin, htype, if_neg hred5, hdes]
    by_cases h1 : pl.voting_period_days > 0
    · rw [if_neg (not_not_intro h1)]
      by_cases h2 : pl.min_vote_threshold > 0
      · rw [if_neg (not_not_intro h2)]
        by_cases h3 : pl.proposal_threshold > 0
        · rw [if_neg (not_not_intro h3)]
          have h4 : ¬ pl.proposal_threshold_percentage ≤ 100 := by
            rcases hbad with hb | hb | hb | hb <;> omega
          rw [if_pos h4]
          right; rfl
        · rw [if_pos h3]
          left; rfl
      · rw [if_pos h2]
        left; rfl
    · rw [if_pos h1]
      left; rfl
  · intro e he
    rw [he]
    rfl

theorem c7_update_settings_validation_witness :
    executeProposal 3 1 3 c6Gov c7Prop = .error .InvalidPayload :=
  (c7_update_settings_validation 3 1 3 c6Gov c7Prop rfl rfl (by decide) rfl
    (by decide) (by decide)).1 rfl

/-- C3: the claim that a winning settlement drains the escrow fund pool to
exactly zero is false: on `c3World` (winning escrow, 150 locked, vault 150)
the settlement succeeds but leaves 1 token in the vault — the rounding
residue of the fee split (fee 1, protocol share 0, staking share 0). -/
theorem c3_counterexample :
    (distributeWinningEscrow c3World 7 0 0).toOption.map
        (fun w2 => w2.escrows.map Escrow.vault) = some [1] ∧
    ¬ ((distributeWinningEscrow c3World 7 0 0).toOption.map
        (fun w2 => w2.escrows.map Escrow.vault) = some [0]) := by
  exact ⟨rfl, by decide⟩

set_option maxHeartbeats 3200000 in
/-- C3 (amended): a winning settlement on an escrow vault holding exactly
`locked_amount` transfers the protocol share to the collector, the staking
share to the rewards vault (crediting `reward_balance`) and
`locked_amount - fee` to the token creator, and drains the vault to exactly
the fee-split rounding residue `fee - protocolShare - stakingShare` (zero
only when the two shares add up to the fee); for every positive
`locked_amount` a second invocation still fails at a transfer step with
insufficient funds. -/
theorem c3_winning_settlement (w : World) (executor fcArg i : Nat) (esc : Escrow)
    (hesc : w.escrows.get? i = some esc)
    (hvault : esc.vault = esc.locked_amount)
    (hpos : 0 < esc.locked_amount)
    (hexec : executor = w.proposal.token_creator)
    (hstatus : w.proposal.status = .Executed)
    (hwin : w.proposal.winning_choice = some esc.choice_id)
    (hfc : fcArg = w.feeCollectorKey)
    (hrb : w.pool.reward_balance +
      calculate_staking_reward (calculate_fee esc.locked_amount) ≤ u64Max) :
    (distributeWinningEscrow w executor fcArg i).toOption.map
        (fun w2 => ((w2.escrows.get? i).map Escrow.vault, w2.feeCollectorBal,
          w2.rewardsVault, w2.pool.reward_balance,
          getBal w2.wallets w.proposal.token_creator))
      = some (some (calculate_fee esc.locked_amount -
            calculate_protocol_fee (calculate_fee esc.locked_amount) -
            calculate_staking_reward (calculate_fee esc.locked_amount)),
          w.feeCollectorBal + calculate_protocol_fee (calculate_fee esc.locked_amount),
          w.rewardsVault + calculate_staking_reward (calculate_fee esc.locked_amount),
          w.pool.reward_balance + calculate_staking_reward (calculate_fee esc.locked_amount),
          getBal w.wallets w.proposal.token_creator +
            (esc.locked_amount - calculate_fee esc.locked_amount)) ∧
    (distributeWinningEscrow w executor fcArg i).toOption.map
        (fun w2 => distributeWinningEscrow w2 executor fcArg i)
      = some (.error .InsufficientFunds) := by
  have hne1 : ¬(executor ≠ w.proposal.token_creator) := not_not_intro hexec
  have hne2 : ¬(w.proposal.status ≠ ProposalStatus.Executed) := not_not_intro hstatus
  have hne3 : ¬(fcArg ≠ w.feeCollectorKey) := not_not_intro hfc
  have hid : ¬(esc.choice_id ≠ esc.choice_id) := not_not_intro rfl
  have hilen : i < w.escrows.length := escGet?_some_lt hesc
  have hset : ∀ a : Escrow, (w.escrows.set i a).get? i = some a :=
    fun a => escGet?_set_self _ _ _ (by
      have : (w.escrows.set i a).length = w.escrows.length := List.length_set _ _ _
      omega)
  by_cases hfee : 0 < calculate_fee esc.locked_amount
  · have hc1 : calculate_protocol_fee (calculate_fee esc.locked_amount) ≤
        esc.locked_amount := by
      simp only [calculate_protocol_fee, calculate_fee, FEE_PERCENTAGE,
        FEE_BASIS_POINTS, PROTOCOL_FEE_PERCENTAGE]
      omega
    have hc2 : calculate_staking_reward (calculate_fee esc.locked_amount) ≤
        esc.locked_amount - calculate_protocol_fee (calculate_fee esc.locked_amount) := by
      simp only [calculate_staking_reward, calculate_protocol_fee, calculate_fee,
        FEE_PERCENTAGE, FEE_BASIS_POINTS, PROTOCOL_FEE_PERCENTAGE,
        STAKING_REWARDS_PERCENTAGE]
      omega
    have hc4 : esc.locked_amount - calculate_fee esc.locked_amount ≤
        esc.locked_amount - calculate_protocol_fee (calculate_fee esc.locked_amount) -
          calculate_staking_reward (calculate_fee esc.locked_amount) := by
      simp only [calculate_staking_reward, calculate_protocol_fee, calculate_fee,
        FEE_PERCENTAGE, FEE_BASIS_POINTS, PROTOCOL_FEE_PERCENTAGE,
        STAKING_REWARDS_PERCENTAGE]
      omega
    simp only [distributeWinningEscrow, if_neg hne1, if_neg hne2, hesc, hwin,
      if_neg hid, if_neg hne3, if_pos hfee, hvault, debit, if_pos hc1, if_pos hc2,
      add64, if_pos hrb, if_pos hc4, Except.toOption, Option.map, hset,
      getBal_setBal, Option.some.injEq, Prod.mk.injEq]
    refine ⟨⟨?_, trivial⟩, ?_⟩
    · simp only [calculate_staking_reward, calculate_protocol_fee, calculate_fee,
        FEE_PERCENTAGE, FEE_BASIS_POINTS, PROTOCOL_FEE_PERCENTAGE,
        STAKING_REWARDS_PERCENTAGE]
      omega
    · by_cases hq1 : calculate_protocol_fee (calculate_fee esc.locked_amount) ≤
          esc.locked_amount - calculate_protocol_fee (calculate_fee esc.locked_amount) -
            calculate_staking_reward (calculate_fee esc.locked_amount) -
            (esc.locked_amount - calculate_fee esc.locked_amount)
      · by_cases hq2 : calculate_staking_reward (calculate_fee esc.locked_amount) ≤
            esc.locked_amount - calculate_protocol_fee (calculate_fee esc.locked_amount) -
              calculate_staking_reward (calculate_fee esc.locked_amount) -
              (esc.locked_amount - calculate_fee esc.locked_amount) -
              calculate_protocol_fee (calculate_fee esc.locked_amount)
        · have hS0 : calculate_staking_reward (calculate_fee esc.locked_amount) = 0 := by
            have hq1c := hq1
            have hq2c := hq2
            simp only [calculate_staking_reward, calculate_protocol_fee,
              calculate_fee, FEE_PERCENTAGE, FEE_BASIS_POINTS,
              PROTOCOL_FEE_PERCENTAGE, STAKING_REWARDS_PERCENTAGE] at hq1c hq2c ⊢
            omega
          have hq3 : w.pool.reward_balance +
              calculate_staking_reward (calculate_fee esc.locked_amount) +
              calculate_staking_reward (calculate_fee esc.locked_amount) ≤ u64Max := by
            omega
          have hq4 : ¬(esc.locked_amount - calculate_fee esc.locked_amount ≤
              esc.locked_amount -
                calculate_protocol_fee (calculate_fee esc.locked_amount) -
                calculate_staking_reward (calculate_fee esc.locked_amount) -
                (esc.locked_amount - calculate_fee esc.locked_amount) -
                calculate_protocol_fee (calculate_fee esc.locked_amount) -
                calculate_staking_reward (calculate_fee esc.locked_amount)) := by
            have hq1c := hq1
            simp only [calculate_staking_reward, calculate_protocol_fee,
              calculate_fee, FEE_PERCENTAGE, FEE_BASIS_POINTS,
              PROTOCOL_FEE_PERCENTAGE, STAKING_REWARDS_PERCENTAGE] at hq1c ⊢
            omega
          simp only [if_pos hq1, if_pos hq2, if_pos hq3, if_neg hq4]
        · simp only [if_pos hq1, if_neg hq2]
      · simp only [if_neg hq1]
  · have hc5 : esc.locked_amount - calculate_fee esc.locked_amount ≤
        esc.locked_amount := by omega
    simp only [distributeWinningEscrow, if_neg hne1, if_neg hne2, hesc, hwin,
      if_neg hid, if_neg hne3, if_neg hfee, hvault, debit, if_pos hc5,
      Except.toOption, Option.map, hset, getBal_setBal, Option.some.injEq,
      Prod.mk.injEq]
    have hF0 : calculate_fee esc.locked_amount = 0 := by omega
    refine ⟨⟨?_, ?_, ?_, ?_, trivial⟩, ?_⟩
    · simp only [calculate_staking_reward, calculate_protocol_fee, hF0]
      omega
    · simp only [calculate_protocol_fee, hF0]
      omega
    · simp only [calculate_staking_reward, hF0]
      omega
    · simp only [calculate_staking_reward, hF0]
      omega
    · have hq5 : ¬(esc.locked_amount - calculate_fee esc.locked_amount ≤
          esc.locked_amount - (esc.locked_amount - calculate_fee esc.locked_amount)) := by
        omega
      simp only [if_neg hq5]

theorem c3_winning_settlement_witness :
    (distributeWinningEscrow c3World 7 0 0).toOption.map
        (fun w2 => distributeWinningEscrow w2 7 0 0)
      = some (.error .InsufficientFunds) :=
  (c3_winning_settlement c3World 7 0 0
      { voter := 2, choice_id := 0, locked_amount := 150, vault := 150 }
      rfl rfl (by decide) rfl rfl rfl rfl (by decide)).2

end GovernFun
